import Mathlib

/-!
# Verification of the `simp` image viewer/editor core

Shallow embedding of the repository's operation pipeline:

* `src/src/app.rs` — the `App::poll` output application loop (undo/redo,
  crop, flip, rotate, resize, color, close, image loading), the
  `WindowEvent::Moved` handler and the resize dialog;
* `src/src/image_io/save.rs` — the atomic temp-file-then-rename save path;
* `src/src/vec2.rs` — the two-component vector used for window geometry.

The `undo_stack`, `image_view`, `image_list` and `cache` modules are not
part of the sources; the few operations of theirs that `App::poll` calls
(`UndoStack::push/undo/redo/clear`, `ImageView` frame swapping and
rotation, `ImageList::clear`, `Cache::clear`) are modelled from the spec,
as marked on each definition.
-/

namespace Simp

/-- Modelled from the spec (§3 "Frame", the `image_view` module is not in
the sources): one still image, a pixel buffer held as a list of rows plus
a per-frame delay (0 for static images). -/
structure Frame where
  pixels : List (List Nat)
  delay : Nat
deriving DecidableEq, Repr

/-- Modelled from the spec (§4.1 flips "mirror all frames"): mirror one
frame horizontally by reversing every pixel row. -/
def Frame.flip_horizontal (f : Frame) : Frame :=
  { f with pixels := f.pixels.map List.reverse }

/-- Modelled from the spec: mirror one frame vertically by reversing the
order of the pixel rows. -/
def Frame.flip_vertical (f : Frame) : Frame :=
  { f with pixels := f.pixels.reverse }

/-- Modelled from the spec (§2 "Document/ImageView state", the
`image_view` module is not in the sources): the UI-facing document state
that `App::poll` mutates — the frame set, the accumulated rotation
bookkeeping, and the four color-adjustment sliders (`f32` neutral value
0.0 modelled as the integer 0). Scale/position/path are untouched by the
claims and omitted. -/
structure ImageView where
  frames : List Frame
  rotation : Int
  hue : Int
  contrast : Int
  saturation : Int
  lightness : Int
deriving DecidableEq, Repr

/-- Modelled from the spec (§4.1 "rotate current frames by `n` quarter
turns (normalized mod 4)"): `ImageView::rotate(dir)` adds `dir` to the
accumulated rotation counter, normalized into `[0, 4)`. -/
def ImageView.rotate (v : ImageView) (dir : Int) : ImageView :=
  { v with rotation := (v.rotation + dir) % 4 }

/-- Modelled from the spec: `ImageView::flip_horizontal` mirrors all
frames. -/
def ImageView.flip_horizontal (v : ImageView) : ImageView :=
  { v with frames := v.frames.map Frame.flip_horizontal }

/-- Modelled from the spec: `ImageView::flip_vertical` mirrors all
frames. -/
def ImageView.flip_vertical (v : ImageView) : ImageView :=
  { v with frames := v.frames.map Frame.flip_vertical }

/-- Modelled from the spec (§3 "ImageLoaded", `ImageView::new`): a fresh
view over the decoded frames, rotation 0, neutral color sliders. -/
def ImageView.new (frames : List Frame) : ImageView :=
  ⟨frames, 0, 0, 0, 0, 0⟩

/-- `UndoFrame` from the spec (§3) and the `match` arms of `App::poll`
(src/src/app.rs lines 143–166): `Rotate` stores the signed quarter-turn
count, the flips carry no payload, and `Crop`/`Resize`/`Color` store the
entire replaced frame set (`Crop` also the replaced rotation). -/
inductive UndoFrame where
  | Rotate (n : Int)
  | FlipHorizontal
  | FlipVertical
  | Crop (frames : List Frame) (rotation : Int)
  | Resize (frames : List Frame)
  | Color (frames : List Frame)
deriving DecidableEq, Repr

/-- Modelled from the spec (§4.3, the `undo_stack` module is not in the
sources): an ordered history of `UndoFrame`s plus a cursor in
`[0, length]`; frames below the cursor are undoable, frames at or above
it are redoable. -/
structure UndoStack where
  stack : List UndoFrame
  cursor : Nat
deriving DecidableEq, Repr

/-- Modelled from the spec: the empty history (`clear()` resets to this,
and a fresh stack starts here). -/
def UndoStack.empty : UndoStack := ⟨[], 0⟩

/-- Modelled from the spec (§4.3): `clear()` — stack = empty, cursor = 0. -/
def UndoStack.clear (_ : UndoStack) : UndoStack := UndoStack.empty

/-- Modelled from the spec (§4.3): `push(frame)` truncates the stack to
the cursor, appends the frame, and increments the cursor. -/
def UndoStack.push (s : UndoStack) (f : UndoFrame) : UndoStack :=
  ⟨s.stack.take s.cursor ++ [f], s.cursor + 1⟩

/-- Modelled from the spec (§4.3): `undo()` — if the cursor is 0, a no-op
returning nothing to apply; otherwise decrement the cursor and return
`stack[cursor]`. The spec keeps `cursor ≤ length`, so the out-of-bounds
lookup branch is unreachable and modelled as the same no-op. -/
def UndoStack.undoStep (s : UndoStack) : Option UndoFrame × UndoStack :=
  if s.cursor = 0 then (none, s)
  else
    match s.stack[s.cursor - 1]? with
    | none => (none, s)
    | some f => (some f, { s with cursor := s.cursor - 1 })

/-- Modelled from the spec (§4.3): `redo()` — if the cursor is at the
stack's length, a no-op; otherwise return `stack[cursor]` and increment
the cursor. -/
def UndoStack.redoStep (s : UndoStack) : Option UndoFrame × UndoStack :=
  match s.stack[s.cursor]? with
  | none => (none, s)
  | some f => (some f, { s with cursor := s.cursor + 1 })

/-- `Output` from src/src/app.rs (`op_queue::Output` as consumed by
`App::poll`): each pixel-mutating variant carries the whole new frame
set; `Crop` additionally carries the worker's rotation snapshot; paths
are reduced to file-name strings. -/
inductive Output where
  | ImageLoaded (frames : List Frame) (path : Option String)
  | FlipHorizontal
  | FlipVertical
  | Rotate (dir : Int)
  | Resize (frames : List Frame)
  | Color (frames : List Frame)
  | Crop (frames : List Frame) (rotation : Int)
  | Undo
  | Redo
  | Close
  | Done
deriving DecidableEq, Repr

/-- The slice of `App` state (src/src/app.rs) that `App::poll` mutates:
the optional document view, the undo stack handed back by
`OpQueue::poll`, the sibling list and cache (only ever cleared here,
modelled as plain lists), the in-progress crop flag `crop.cropping`, and
the current file name. -/
structure App where
  image_view : Option ImageView
  undo_stack : UndoStack
  image_list : List String
  cache : List (String × List Frame)
  cropping : Bool
  current_filename : String
deriving DecidableEq, Repr

/-- One iteration of the `App::poll` output application loop
(src/src/app.rs lines 78–207), as a function from the applied `Output`
and the pre-state to the post-state. `none` models a panic: the `Undo`
and `Redo` arms call `self.image_view.as_mut().unwrap()`, so a yielded
undo frame with no resident view is a panic. Purely visual side effects
(window title, `best_fit`, `resize.set_size`) and the `ImageList`
rebuild on `change_dir` touch no state the claims mention and are not
modelled; frame swaps (`ImageView::swap_frames`, `std::mem::swap` on the
rotation) are written out as the pair of writes they perform. -/
def applyOutput (out : Output) (s : App) : Option App :=
  match out with
  | Output.ImageLoaded frames path =>
      some { s with
        undo_stack := s.undo_stack.clear,
        image_view := some (ImageView.new frames),
        current_filename := path.getD "" }
  | Output.FlipHorizontal =>
      match s.image_view with
      | none => none
      | some v =>
          some { s with
            image_view := some v.flip_horizontal,
            undo_stack := s.undo_stack.push UndoFrame.FlipHorizontal }
  | Output.FlipVertical =>
      match s.image_view with
      | none => none
      | some v =>
          some { s with
            image_view := some v.flip_vertical,
            undo_stack := s.undo_stack.push UndoFrame.FlipVertical }
  | Output.Rotate dir =>
      match s.image_view with
      | none => none
      | some v =>
          some { s with
            image_view := some (v.rotate dir),
            undo_stack := s.undo_stack.push (UndoFrame.Rotate dir) }
  | Output.Resize frames =>
      match s.image_view with
      | none => some s
      | some v =>
          some { s with
            image_view := some { v with frames := frames },
            undo_stack := s.undo_stack.push (UndoFrame.Resize v.frames) }
  | Output.Color frames =>
      match s.image_view with
      | none => some s
      | some v =>
          some { s with
            image_view := some { v with
              frames := frames, hue := 0, contrast := 0,
              saturation := 0, lightness := 0 },
            undo_stack := s.undo_stack.push (UndoFrame.Color v.frames) }
  | Output.Crop frames rotation =>
      match s.image_view with
      | none => some s
      | some v =>
          some { s with
            image_view := some { v with rotation := 0, frames := frames },
            undo_stack := s.undo_stack.push (UndoFrame.Crop v.frames rotation) }
  | Output.Undo =>
      match s.undo_stack.undoStep with
      | (none, _) => some s
      | (some f, st) =>
          match s.image_view with
          | none => none
          | some v =>
              match f with
              | UndoFrame.Rotate rot =>
                  some { s with
                    image_view := some (v.rotate (-rot)), undo_stack := st }
              | UndoFrame.FlipHorizontal =>
                  some { s with
                    image_view := some v.flip_horizontal, undo_stack := st }
              | UndoFrame.FlipVertical =>
                  some { s with
                    image_view := some v.flip_vertical, undo_stack := st }
              | UndoFrame.Crop fs r =>
                  some { s with
                    image_view := some { v with frames := fs, rotation := r },
                    undo_stack :=
                      ⟨st.stack.set st.cursor (UndoFrame.Crop v.frames v.rotation),
                        st.cursor⟩ }
              | UndoFrame.Resize fs =>
                  some { s with
                    image_view := some { v with frames := fs },
                    undo_stack :=
                      ⟨st.stack.set st.cursor (UndoFrame.Resize v.frames),
                        st.cursor⟩ }
              | UndoFrame.Color fs =>
                  some { s with
                    image_view := some { v with frames := fs },
                    undo_stack :=
                      ⟨st.stack.set st.cursor (UndoFrame.Color v.frames),
                        st.cursor⟩ }
  | Output.Redo =>
      match s.undo_stack.redoStep with
      | (none, _) => some s
      | (some f, st) =>
          match s.image_view with
          | none => none
          | some v =>
              match f with
              | UndoFrame.Rotate rot =>
                  some { s with
                    image_view := some (v.rotate rot), undo_stack := st }
              | UndoFrame.FlipHorizontal =>
                  some { s with
                    image_view := some v.flip_horizontal, undo_stack := st }
              | UndoFrame.FlipVertical =>
                  some { s with
                    image_view := some v.flip_vertical, undo_stack := st }
              | UndoFrame.Crop fs r =>
                  some { s with
                    image_view := some { v with frames := fs, rotation := r },
                    undo_stack :=
                      ⟨st.stack.set s.undo_stack.cursor
                        (UndoFrame.Crop v.frames v.rotation), st.cursor⟩ }
              | UndoFrame.Resize fs =>
                  some { s with
                    image_view := some { v with frames := fs },
                    undo_stack :=
                      ⟨st.stack.set s.undo_stack.cursor
                        (UndoFrame.Resize v.frames), st.cursor⟩ }
              | UndoFrame.Color fs =>
                  some { s with
                    image_view := some { v with frames := fs },
                    undo_stack :=
                      ⟨st.stack.set s.undo_stack.cursor
                        (UndoFrame.Color v.frames), st.cursor⟩ }
  | Output.Close =>
      some { s with
        image_view := none,
        undo_stack := s.undo_stack.clear,
        image_list := [],
        cropping := false,
        cache := [] }
  | Output.Done => some s

/-! ## Window geometry: `Vec2` (src/src/vec2.rs) and the `Moved` handler -/

/-- `Vec2<T>` from src/src/vec2.rs: a two-component vector backed by
`inner: [T; 2]`, with `x()`/`y()` reading `inner[0]`/`inner[1]`; written
here as the two components. -/
structure Vec2 (α : Type) where
  x : α
  y : α
deriving DecidableEq, Repr

/-- `Vec2::set_x` / `*v.mut_x() = a` from src/src/vec2.rs: overwrite
`inner[0]`. -/
def Vec2.set_x (v : Vec2 α) (a : α) : Vec2 α := { v with x := a }

/-- `Vec2::set_y` / `*v.mut_y() = a` from src/src/vec2.rs: overwrite
`inner[1]`. -/
def Vec2.set_y (v : Vec2 α) (a : α) : Vec2 α := { v with y := a }

/-- The `WindowEvent::Moved(position)` arm of `App::handle_window_event`
(src/src/app.rs lines 237–240): the two statements are
`*self.position.mut_x() = position.x;` followed by
`*self.position.mut_x() = position.y;` — both write the x component.
Returns the updated `App.position`. -/
def handle_moved (position : Vec2 Int) (event : Vec2 Int) : Vec2 Int :=
  let p1 := position.set_x event.x
  let p2 := p1.set_x event.y
  p2

/-! ## The resize dialog (src/src/app.rs `App::resize_ui`) -/

/-- The optional leading `+` sign accepted by Rust's `u32::from_str`. -/
def stripPlus : List Char → List Char
  | '+' :: rest => rest
  | cs => cs

/-- The numeric value of a run of ASCII digits, most significant first. -/
def digitsValue (cs : List Char) : Nat :=
  cs.foldl (fun a c => a * 10 + (c.toNat - 48)) 0

/-- Rust's `str::parse::<u32>` (`u32::from_str`) on the text of a resize
field: an optional leading `+`, then one or more ASCII digits whose
value fits in a `u32`; anything else — empty input, other characters,
overflow — is a parse error. -/
def parse_u32 (s : String) : Option Nat :=
  let digits := stripPlus s.toList
  if digits.isEmpty then none
  else if digits.all Char.isDigit then
    if digitsValue digits < 4294967296 then some (digitsValue digits)
    else none
  else none

/-- The Resize button of `App::resize_ui` (src/src/app.rs lines 609–660):
the button is enabled iff `width.parse::<u32>()` and
`height.parse::<u32>()` both succeed and the view is available, and
clicking it queues `Op::Resize(Vec2::new(width, height), filter)`.
Returns the size of the queued `Op::Resize`, or `none` when the button
is disabled. (The dialog's `retain(is_numeric)` filtering only restricts
which field strings are reachable; it keeps digit strings such as `"0"`
unchanged.) -/
def resize_ui_queue (widthField heightField : String)
    (viewAvailable : Bool) : Option (Nat × Nat) :=
  match parse_u32 widthField, parse_u32 heightField with
  | some w, some h => if viewAvailable then some (w, h) else none
  | _, _ => none

/-! ## Atomic save (src/src/image_io/save.rs) -/

/-- A filesystem path split as `PathBuf` operations see it: the parent
directory components and the final file-name component. -/
structure FilePath where
  dir : List String
  file : String
deriving DecidableEq, Repr

/-- The bytes of one file. -/
abbrev Bytes := List Nat

/-- The relevant slice of the filesystem: a finite map from paths to file
contents, as an association list (most recent write first). -/
abbrev Fs := List (FilePath × Bytes)

/-- Contents of the file at `p`, if it exists. -/
def fsLookup (fs : Fs) (p : FilePath) : Option Bytes :=
  (fs.find? (fun e => decide (e.1 = p))).map (·.2)

/-- Create-or-truncate-then-write: afterwards `p` holds exactly `b`. -/
def fsWrite (fs : Fs) (p : FilePath) (b : Bytes) : Fs :=
  (p, b) :: fs.filter (fun e => !decide (e.1 = p))

/-- `std::fs::rename(src, dst)`: atomically move the file at `src` over
`dst` (a no-op here if `src` does not exist, which the save paths never
hit). -/
def fsRename (fs : Fs) (src dst : FilePath) : Fs :=
  match fsLookup fs src with
  | none => fs
  | some b => fsWrite (fs.filter (fun e => !decide (e.1 = src))) dst b

/-- `get_temp_path` from src/src/image_io/save.rs lines 87–93: take the
destination path and `set_file_name` to `'.'` followed by a fresh
`nanoid`, keeping the directory; `id` stands for the generated
`nanoid`. -/
def get_temp_path (path : FilePath) (id : String) : FilePath :=
  { dir := path.dir, file := "." ++ id }

/-- Result of a save call: the `SaveResult<()>` together with the
filesystem it leaves behind (`error` corresponds to an early `?`
return). -/
inductive SaveOutcome where
  | ok (fs : Fs)
  | error (fs : Fs)
deriving DecidableEq, Repr

/-- `save_with_format` from src/src/image_io/save.rs lines 95–106:
compute the temp path, `open_file` it (create/truncate, leaving an empty
file), stream the encoded image into it with `write_to` — modelled by
`encoded`, `none` standing for an encode/write failure whose error the
`?` propagates — and only on success `rename` the temp file over the
destination. `tiff`, `gif` and `farbfeld` (lines 108–150) follow this
exact shape with their own encoders. -/
def save_with_format (fs : Fs) (path : FilePath) (id : String)
    (encoded : Option Bytes) : SaveOutcome :=
  let temp := get_temp_path path id
  let fs1 := fsWrite fs temp []
  match encoded with
  | none => SaveOutcome.error fs1
  | some b => SaveOutcome.ok (fsRename (fsWrite fs1 temp b) temp path)

/-- `webp` from src/src/image_io/save.rs lines 180–195 (and
`webp_animation`, lines 152–178, same shape): encode in memory first —
a failure here leaves the filesystem untouched — then open the temp
file, `write_all` the bytes (`writeOk` false models an I/O failure whose
error the `?` propagates), and only then `rename` over the
destination. -/
def webp (fs : Fs) (path : FilePath) (id : String)
    (encoded : Option Bytes) (writeOk : Bool) : SaveOutcome :=
  match encoded with
  | none => SaveOutcome.error fs
  | some b =>
      let temp := get_temp_path path id
      let fs1 := fsWrite fs temp []
      if writeOk then SaveOutcome.ok (fsRename (fsWrite fs1 temp b) temp path)
      else SaveOutcome.error (fsWrite fs1 temp b)

/-! ## One undo/redo cycle and its iteration -/

/-- One undo/redo cycle at the poll level: apply `Output::Undo`, then
`Output::Redo`. -/
def undoRedo (s : App) : Option App :=
  (applyOutput Output.Undo s).bind (applyOutput Output.Redo)

/-- `n` consecutive undo/redo cycles. -/
def undoRedoN : Nat → App → Option App
  | 0, s => some s
  | n + 1, s => (undoRedo s).bind (undoRedoN n)


/-- The round-trip contract of one reversible output `o` applied to a
state `s` whose resident view is `v`: the application succeeds and pushes
`pushed` on top of the history; a following `Output::Undo` succeeds and
restores the exact prior frame bytes and rotation value, leaving
`afterUndo` (the swapped-out, currently-not-displayed state) at the top
of the history; a following `Output::Redo` restores exactly the post-op
state; and any number of further undo/redo cycles reproduces that post-op
state with no drift. -/
def roundTrip (o : Output) (s : App) (v : ImageView)
    (pushed afterUndo : UndoFrame) : Prop :=
  ∃ s1, applyOutput o s = some s1 ∧
    s1.undo_stack.stack.getLast? = some pushed ∧
    ∃ s2 v2, applyOutput Output.Undo s1 = some s2 ∧
      s2.image_view = some v2 ∧
      v2.frames = v.frames ∧
      v2.rotation = v.rotation ∧
      s2.undo_stack.stack.getLast? = some afterUndo ∧
      applyOutput Output.Redo s2 = some s1 ∧
      ∀ n, undoRedoN n s1 = some s1

/-- The cross-component invariant tying the undo history to the document:
the undo stack is non-empty only while a view is resident. This is what
makes the `unwrap()` calls in the `Undo`/`Redo` arms of `App::poll`
safe. -/
def stackImpliesView (s : App) : Prop :=
  s.undo_stack.stack ≠ [] → s.image_view.isSome = true

/-- A concrete 2×2 single-frame image used to instantiate the theorems. -/
def demoFrame : Frame := ⟨[[1, 2], [3, 4]], 0⟩

/-- A concrete resident view over `demoFrame`. -/
def demoView : ImageView := ⟨[demoFrame], 0, 0, 0, 0, 0⟩

/-- A concrete app state: `demoView` resident, empty history. -/
def demoApp : App := ⟨some demoView, ⟨[], 0⟩, [], [], false, ""⟩

/-- A concrete replacement frame set (as a worker would produce). -/
def demoFrames : List Frame := [⟨[[5]], 7⟩]

/-- A concrete app state whose history holds one undoable flip. -/
def demoApp2 : App :=
  ⟨some demoView, ⟨[UndoFrame.FlipHorizontal], 1⟩, [], [], false, ""⟩

/-- A concrete save destination. -/
def demoPath : FilePath := ⟨["pics"], "a.png"⟩

/-- A concrete filesystem holding an existing file at `demoPath`. -/
def demoFs : Fs := [(demoPath, [9, 9])]

/-! ## List helpers for the stack index arithmetic -/

lemma getElem?_concat_length (l : List α) (a : α) : (l ++ [a])[l.length]? = some a := by
  induction l with
  | nil => rfl
  | cons b l ih => simp [ih]

lemma getElem?_concat_eq (l : List α) (a : α) (c : Nat) (hl : l.length = c) :
    (l ++ [a])[c]? = some a := by
  subst hl; exact getElem?_concat_length l a

lemma set_concat_length (l : List α) (a b : α) : (l ++ [a]).set l.length b = l ++ [b] := by
  induction l with
  | nil => rfl
  | cons c l ih => simp [ih]

lemma set_concat_eq (l : List α) (a b : α) (c : Nat) (hl : l.length = c) :
    (l ++ [a]).set c b = l ++ [b] := by
  subst hl; exact set_concat_length l a b

lemma getLast?_concat_eq (l : List α) (a : α) : (l ++ [a]).getLast? = some a :=
  List.getLast?_concat l

lemma getElem?_length_self (l : List α) : l[l.length]? = none := by
  induction l with
  | nil => rfl
  | cons b l ih => simp [ih]

/-! ## Involution and rotation lemmas for the view transforms -/

lemma Frame.flip_horizontal_twice (f : Frame) :
    f.flip_horizontal.flip_horizontal = f := by
  cases f
  simp [Frame.flip_horizontal, List.map_map, Function.comp_def]

lemma Frame.flip_vertical_twice (f : Frame) :
    f.flip_vertical.flip_vertical = f := by
  cases f
  simp [Frame.flip_vertical]

lemma ImageView.flip_horizontal_involutive (v : ImageView) :
    v.flip_horizontal.flip_horizontal = v := by
  cases v
  simp [ImageView.flip_horizontal, List.map_map, Function.comp_def,
    Frame.flip_horizontal_twice]

lemma ImageView.flip_vertical_involutive (v : ImageView) :
    v.flip_vertical.flip_vertical = v := by
  cases v
  simp [ImageView.flip_vertical, List.map_map, Function.comp_def,
    Frame.flip_vertical_twice]

lemma ImageView.rotate_neg_rotate (v : ImageView) (d : Int)
    (h : v.rotation % 4 = v.rotation) : (v.rotate d).rotate (-d) = v := by
  cases v
  simp only [ImageView.rotate, ImageView.mk.injEq, and_true, true_and] at h ⊢
  omega


lemma undoRedoN_fixed {s : App} (h : undoRedo s = some s) :
    ∀ n, undoRedoN n s = some s := by
  intro n
  induction n with
  | zero => rfl
  | succ n ih => simp [undoRedoN, h, ih]

section ApplyEquations

variable (v : ImageView) (l : List UndoFrame) (c : Nat)
variable (il : List String) (ca : List (String × List Frame))
variable (cr : Bool) (fn : String)

lemma apply_undo_rotate (rot : Int) (hl : l.length = c) :
    applyOutput Output.Undo
        ⟨some v, ⟨l ++ [UndoFrame.Rotate rot], c + 1⟩, il, ca, cr, fn⟩ =
      some ⟨some (v.rotate (-rot)), ⟨l ++ [UndoFrame.Rotate rot], c⟩,
        il, ca, cr, fn⟩ := by
  subst hl
  simp [applyOutput, UndoStack.undoStep, getElem?_concat_length]

lemma apply_redo_rotate (rot : Int) (hl : l.length = c) :
    applyOutput Output.Redo
        ⟨some v, ⟨l ++ [UndoFrame.Rotate rot], c⟩, il, ca, cr, fn⟩ =
      some ⟨some (v.rotate rot), ⟨l ++ [UndoFrame.Rotate rot], c + 1⟩,
        il, ca, cr, fn⟩ := by
  subst hl
  simp [applyOutput, UndoStack.redoStep, getElem?_concat_length]

lemma apply_undo_flip_h (hl : l.length = c) :
    applyOutput Output.Undo
        ⟨some v, ⟨l ++ [UndoFrame.FlipHorizontal], c + 1⟩, il, ca, cr, fn⟩ =
      some ⟨some v.flip_horizontal, ⟨l ++ [UndoFrame.FlipHorizontal], c⟩,
        il, ca, cr, fn⟩ := by
  subst hl
  simp [applyOutput, UndoStack.undoStep, getElem?_concat_length]

lemma apply_redo_flip_h (hl : l.length = c) :
    applyOutput Output.Redo
        ⟨some v, ⟨l ++ [UndoFrame.FlipHorizontal], c⟩, il, ca, cr, fn⟩ =
      some ⟨some v.flip_horizontal, ⟨l ++ [UndoFrame.FlipHorizontal], c + 1⟩,
        il, ca, cr, fn⟩ := by
  subst hl
  simp [applyOutput, UndoStack.redoStep, getElem?_concat_length]

lemma apply_undo_flip_v (hl : l.length = c) :
    applyOutput Output.Undo
        ⟨some v, ⟨l ++ [UndoFrame.FlipVertical], c + 1⟩, il, ca, cr, fn⟩ =
      some ⟨some v.flip_vertical, ⟨l ++ [UndoFrame.FlipVertical], c⟩,
        il, ca, cr, fn⟩ := by
  subst hl
  simp [applyOutput, UndoStack.undoStep, getElem?_concat_length]

lemma apply_redo_flip_v (hl : l.length = c) :
    applyOutput Output.Redo
        ⟨some v, ⟨l ++ [UndoFrame.FlipVertical], c⟩, il, ca, cr, fn⟩ =
      some ⟨some v.flip_vertical, ⟨l ++ [UndoFrame.FlipVertical], c + 1⟩,
        il, ca, cr, fn⟩ := by
  subst hl
  simp [applyOutput, UndoStack.redoStep, getElem?_concat_length]

lemma apply_undo_crop (fs : List Frame) (r : Int) (hl : l.length = c) :
    applyOutput Output.Undo
        ⟨some v, ⟨l ++ [UndoFrame.Crop fs r], c + 1⟩, il, ca, cr, fn⟩ =
      some ⟨some { v with frames := fs, rotation := r },
        ⟨l ++ [UndoFrame.Crop v.frames v.rotation], c⟩, il, ca, cr, fn⟩ := by
  subst hl
  simp [applyOutput, UndoStack.undoStep, getElem?_concat_length,
    set_concat_length]

lemma apply_redo_crop (fs : List Frame) (r : Int) (hl : l.length = c) :
    applyOutput Output.Redo
        ⟨some v, ⟨l ++ [UndoFrame.Crop fs r], c⟩, il, ca, cr, fn⟩ =
      some ⟨some { v with frames := fs, rotation := r },
        ⟨l ++ [UndoFrame.Crop v.frames v.rotation], c + 1⟩, il, ca, cr, fn⟩ := by
  subst hl
  simp [applyOutput, UndoStack.redoStep, getElem?_concat_length,
    set_concat_length]

lemma apply_undo_resize (fs : List Frame) (hl : l.length = c) :
    applyOutput Output.Undo
        ⟨some v, ⟨l ++ [UndoFrame.Resize fs], c + 1⟩, il, ca, cr, fn⟩ =
      some ⟨some { v with frames := fs },
        ⟨l ++ [UndoFrame.Resize v.frames], c⟩, il, ca, cr, fn⟩ := by
  subst hl
  simp [applyOutput, UndoStack.undoStep, getElem?_concat_length,
    set_concat_length]

lemma apply_redo_resize (fs : List Frame) (hl : l.length = c) :
    applyOutput Output.Redo
        ⟨some v, ⟨l ++ [UndoFrame.Resize fs], c⟩, il, ca, cr, fn⟩ =
      some ⟨some { v with frames := fs },
        ⟨l ++ [UndoFrame.Resize v.frames], c + 1⟩, il, ca, cr, fn⟩ := by
  subst hl
  simp [applyOutput, UndoStack.redoStep, getElem?_concat_length,
    set_concat_length]

lemma apply_undo_color (fs : List Frame) (hl : l.length = c) :
    applyOutput Output.Undo
        ⟨some v, ⟨l ++ [UndoFrame.Color fs], c + 1⟩, il, ca, cr, fn⟩ =
      some ⟨some { v with frames := fs },
        ⟨l ++ [UndoFrame.Color v.frames], c⟩, il, ca, cr, fn⟩ := by
  subst hl
  simp [applyOutput, UndoStack.undoStep, getElem?_concat_length,
    set_concat_length]

lemma apply_redo_color (fs : List Frame) (hl : l.length = c) :
    applyOutput Output.Redo
        ⟨some v, ⟨l ++ [UndoFrame.Color fs], c⟩, il, ca, cr, fn⟩ =
      some ⟨some { v with frames := fs },
        ⟨l ++ [UndoFrame.Color v.frames], c + 1⟩, il, ca, cr, fn⟩ := by
  subst hl
  simp [applyOutput, UndoStack.redoStep, getElem?_concat_length,
    set_concat_length]

end ApplyEquations

section RoundTrips

variable (v : ImageView) (st : List UndoFrame) (c : Nat)
variable (il : List String) (ca : List (String × List Frame))
variable (cr : Bool) (fn : String)

lemma roundTrip_rotate (d : Int) (hc : c ≤ st.length)
    (hr : v.rotation % 4 = v.rotation) :
    roundTrip (Output.Rotate d) ⟨some v, ⟨st, c⟩, il, ca, cr, fn⟩ v
      (UndoFrame.Rotate d) (UndoFrame.Rotate d) := by
  have hl : (st.take c).length = c := by simp; omega
  have h2 := apply_undo_rotate (v.rotate d) (st.take c) c il ca cr fn d hl
  rw [ImageView.rotate_neg_rotate v d hr] at h2
  have h3 := apply_redo_rotate v (st.take c) c il ca cr fn d hl
  refine ⟨⟨some (v.rotate d), ⟨st.take c ++ [UndoFrame.Rotate d], c + 1⟩,
      il, ca, cr, fn⟩, rfl, getLast?_concat_eq _ _,
    ⟨some v, ⟨st.take c ++ [UndoFrame.Rotate d], c⟩, il, ca, cr, fn⟩, v,
    h2, rfl, rfl, rfl, getLast?_concat_eq _ _, h3,
    undoRedoN_fixed ?_⟩
  unfold undoRedo
  rw [h2]
  exact h3

lemma roundTrip_flip_h (hc : c ≤ st.length) :
    roundTrip Output.FlipHorizontal ⟨some v, ⟨st, c⟩, il, ca, cr, fn⟩ v
      UndoFrame.FlipHorizontal UndoFrame.FlipHorizontal := by
  have hl : (st.take c).length = c := by simp; omega
  have h2 := apply_undo_flip_h v.flip_horizontal (st.take c) c il ca cr fn hl
  rw [ImageView.flip_horizontal_involutive v] at h2
  have h3 := apply_redo_flip_h v (st.take c) c il ca cr fn hl
  refine ⟨⟨some v.flip_horizontal,
      ⟨st.take c ++ [UndoFrame.FlipHorizontal], c + 1⟩, il, ca, cr, fn⟩,
    rfl, getLast?_concat_eq _ _,
    ⟨some v, ⟨st.take c ++ [UndoFrame.FlipHorizontal], c⟩, il, ca, cr, fn⟩, v,
    h2, rfl, rfl, rfl, getLast?_concat_eq _ _, h3,
    undoRedoN_fixed ?_⟩
  unfold undoRedo
  rw [h2]
  exact h3

lemma roundTrip_flip_v (hc : c ≤ st.length) :
    roundTrip Output.FlipVertical ⟨some v, ⟨st, c⟩, il, ca, cr, fn⟩ v
      UndoFrame.FlipVertical UndoFrame.FlipVertical := by
  have hl : (st.take c).length = c := by simp; omega
  have h2 := apply_undo_flip_v v.flip_vertical (st.take c) c il ca cr fn hl
  rw [ImageView.flip_vertical_involutive v] at h2
  have h3 := apply_redo_flip_v v (st.take c) c il ca cr fn hl
  refine ⟨⟨some v.flip_vertical,
      ⟨st.take c ++ [UndoFrame.FlipVertical], c + 1⟩, il, ca, cr, fn⟩,
    rfl, getLast?_concat_eq _ _,
    ⟨some v, ⟨st.take c ++ [UndoFrame.FlipVertical], c⟩, il, ca, cr, fn⟩, v,
    h2, rfl, rfl, rfl, getLast?_concat_eq _ _, h3,
    undoRedoN_fixed ?_⟩
  unfold undoRedo
  rw [h2]
  exact h3

lemma roundTrip_crop (nf : List Frame) (hc : c ≤ st.length) :
    roundTrip (Output.Crop nf v.rotation) ⟨some v, ⟨st, c⟩, il, ca, cr, fn⟩ v
      (UndoFrame.Crop v.frames v.rotation) (UndoFrame.Crop nf 0) := by
  have hl : (st.take c).length = c := by simp; omega
  have h2 := apply_undo_crop { v with rotation := 0, frames := nf }
    (st.take c) c il ca cr fn v.frames v.rotation hl
  have h3 := apply_redo_crop v (st.take c) c il ca cr fn nf 0 hl
  refine ⟨⟨some { v with rotation := 0, frames := nf },
      ⟨st.take c ++ [UndoFrame.Crop v.frames v.rotation], c + 1⟩,
      il, ca, cr, fn⟩, rfl, getLast?_concat_eq _ _,
    ⟨some v, ⟨st.take c ++ [UndoFrame.Crop nf 0], c⟩, il, ca, cr, fn⟩, v,
    h2, rfl, rfl, rfl, getLast?_concat_eq _ _, h3,
    undoRedoN_fixed ?_⟩
  unfold undoRedo
  rw [show applyOutput Output.Undo
      ⟨some { v with rotation := 0, frames := nf },
        ⟨st.take c ++ [UndoFrame.Crop v.frames v.rotation], c + 1⟩,
        il, ca, cr, fn⟩ =
    some ⟨some v, ⟨st.take c ++ [UndoFrame.Crop nf 0], c⟩, il, ca, cr, fn⟩
    from h2]
  exact h3

lemma roundTrip_resize (nf : List Frame) (hc : c ≤ st.length) :
    roundTrip (Output.Resize nf) ⟨some v, ⟨st, c⟩, il, ca, cr, fn⟩ v
      (UndoFrame.Resize v.frames) (UndoFrame.Resize nf) := by
  have hl : (st.take c).length = c := by simp; omega
  have h2 := apply_undo_resize { v with frames := nf }
    (st.take c) c il ca cr fn v.frames hl
  have h3 := apply_redo_resize v (st.take c) c il ca cr fn nf hl
  refine ⟨⟨some { v with frames := nf },
      ⟨st.take c ++ [UndoFrame.Resize v.frames], c + 1⟩, il, ca, cr, fn⟩,
    rfl, getLast?_concat_eq _ _,
    ⟨some v, ⟨st.take c ++ [UndoFrame.Resize nf], c⟩, il, ca, cr, fn⟩, v,
    h2, rfl, rfl, rfl, getLast?_concat_eq _ _, h3,
    undoRedoN_fixed ?_⟩
  unfold undoRedo
  rw [show applyOutput Output.Undo
      ⟨some { v with frames := nf },
        ⟨st.take c ++ [UndoFrame.Resize v.frames], c + 1⟩, il, ca, cr, fn⟩ =
    some ⟨some v, ⟨st.take c ++ [UndoFrame.Resize nf], c⟩, il, ca, cr, fn⟩
    from h2]
  exact h3

lemma roundTrip_color (nf : List Frame) (hc : c ≤ st.length) :
    roundTrip (Output.Color nf) ⟨some v, ⟨st, c⟩, il, ca, cr, fn⟩ v
      (UndoFrame.Color v.frames) (UndoFrame.Color nf) := by
  have hl : (st.take c).length = c := by simp; omega
  have h2 := apply_undo_color (⟨nf, v.rotation, 0, 0, 0, 0⟩ : ImageView)
    (st.take c) c il ca cr fn v.frames hl
  have h3 := apply_redo_color
    ⟨v.frames, v.rotation, 0, 0, 0, 0⟩ (st.take c) c il ca cr fn nf hl
  refine ⟨⟨some ⟨nf, v.rotation, 0, 0, 0, 0⟩,
      ⟨st.take c ++ [UndoFrame.Color v.frames], c + 1⟩, il, ca, cr, fn⟩,
    rfl, getLast?_concat_eq _ _,
    ⟨some ⟨v.frames, v.rotation, 0, 0, 0, 0⟩,
      ⟨st.take c ++ [UndoFrame.Color nf], c⟩, il, ca, cr, fn⟩,
    ⟨v.frames, v.rotation, 0, 0, 0, 0⟩,
    h2, rfl, rfl, rfl, getLast?_concat_eq _ _, h3,
    undoRedoN_fixed ?_⟩
  unfold undoRedo
  rw [show applyOutput Output.Undo
      ⟨some ⟨nf, v.rotation, 0, 0, 0, 0⟩,
        ⟨st.take c ++ [UndoFrame.Color v.frames], c + 1⟩, il, ca, cr, fn⟩ =
    some ⟨some ⟨v.frames, v.rotation, 0, 0, 0, 0⟩,
      ⟨st.take c ++ [UndoFrame.Color nf], c⟩, il, ca, cr, fn⟩ from h2]
  exact h3

end RoundTrips

/-! ## Filesystem lemmas for the atomic save -/

lemma find?_filter_of_imp (l : List α) (P Q : α → Bool)
    (h : ∀ e, P e = true → Q e = true) :
    (l.filter Q).find? P = l.find? P := by
  induction l with
  | nil => rfl
  | cons a l ih =>
      by_cases hQ : Q a = true
      · by_cases hP : P a = true
        · rw [List.filter_cons_of_pos hQ, List.find?_cons_of_pos _ hP,
            List.find?_cons_of_pos _ hP]
        · rw [List.filter_cons_of_pos hQ, List.find?_cons_of_neg _ hP,
            List.find?_cons_of_neg _ hP, ih]
      · have hP : ¬ P a = true := fun hp => hQ (h a hp)
        rw [List.filter_cons_of_neg hQ, List.find?_cons_of_neg _ hP, ih]

lemma fsLookup_write_self (fs : Fs) (p : FilePath) (b : Bytes) :
    fsLookup (fsWrite fs p b) p = some b := by
  simp [fsLookup, fsWrite]

lemma fsLookup_write_ne (fs : Fs) (p q : FilePath) (b : Bytes)
    (h : q ≠ p) : fsLookup (fsWrite fs q b) p = fsLookup fs p := by
  unfold fsLookup fsWrite
  rw [List.find?_cons_of_neg _ (by simp [h])]
  rw [find?_filter_of_imp]
  intro e he
  simp at he ⊢
  intro hq
  exact h (hq ▸ he ▸ rfl)

lemma parse_u32_lt (s : String) (w : Nat) (h : parse_u32 s = some w) :
    w < 4294967296 := by
  simp only [parse_u32] at h
  split_ifs at h with h1 h2 h3
  · exact Option.some.inj h ▸ h3

/-! ## Claim theorems -/

/-- C1: for every reversible operation (Rotate, FlipHorizontal,
FlipVertical, Crop, Resize, Color) applied to a state with a resident
view — with the view's rotation mod-4 normalized, the stack cursor in
bounds, and (for Crop) the output's rotation snapshot equal to the
view's current rotation, as the single-in-flight worker protocol
guarantees — applying the operation and then `Output::Undo` restores the
document's exact prior frame bytes and rotation value; applying
`Output::Redo` after that Undo restores the exact post-operation state;
iterating the undo/redo cycle any number `n` of times reproduces the
post-operation state with no drift; and the application is a swap, so
the top history frame always holds whichever frame set is not currently
displayed (the pre-op set after the op, the post-op set after the
undo). -/
theorem C1_reversible_round_trip (s : App) (v : ImageView) (d : Int)
    (nf : List Frame) (rsnap : Int)
    (hv : s.image_view = some v)
    (hr : v.rotation % 4 = v.rotation)
    (hc : s.undo_stack.cursor ≤ s.undo_stack.stack.length)
    (hsnap : rsnap = v.rotation) :
    roundTrip (Output.Rotate d) s v (UndoFrame.Rotate d)
      (UndoFrame.Rotate d) ∧
    roundTrip Output.FlipHorizontal s v UndoFrame.FlipHorizontal
      UndoFrame.FlipHorizontal ∧
    roundTrip Output.FlipVertical s v UndoFrame.FlipVertical
      UndoFrame.FlipVertical ∧
    roundTrip (Output.Crop nf rsnap) s v (UndoFrame.Crop v.frames rsnap)
      (UndoFrame.Crop nf 0) ∧
    roundTrip (Output.Resize nf) s v (UndoFrame.Resize v.frames)
      (UndoFrame.Resize nf) ∧
    roundTrip (Output.Color nf) s v (UndoFrame.Color v.frames)
      (UndoFrame.Color nf) := by
  subst hsnap
  rcases s with ⟨iv, ⟨st, c⟩, il, ca, cr, fn⟩
  have hv' : iv = some v := hv
  subst hv'
  have hc' : c ≤ st.length := hc
  exact ⟨roundTrip_rotate v st c il ca cr fn d hc' hr,
    roundTrip_flip_h v st c il ca cr fn hc',
    roundTrip_flip_v v st c il ca cr fn hc',
    roundTrip_crop v st c il ca cr fn nf hc',
    roundTrip_resize v st c il ca cr fn nf hc',
    roundTrip_color v st c il ca cr fn nf hc'⟩

/-- Witness for C1 at a concrete state: the demo document with rotation
0, empty history, rotating by one quarter turn, and a concrete
replacement frame set for Crop/Resize/Color. -/
theorem C1_witness :
    roundTrip (Output.Rotate 1) demoApp demoView (UndoFrame.Rotate 1)
      (UndoFrame.Rotate 1) ∧
    roundTrip Output.FlipHorizontal demoApp demoView
      UndoFrame.FlipHorizontal UndoFrame.FlipHorizontal ∧
    roundTrip Output.FlipVertical demoApp demoView
      UndoFrame.FlipVertical UndoFrame.FlipVertical ∧
    roundTrip (Output.Crop demoFrames 0) demoApp demoView
      (UndoFrame.Crop demoView.frames 0) (UndoFrame.Crop demoFrames 0) ∧
    roundTrip (Output.Resize demoFrames) demoApp demoView
      (UndoFrame.Resize demoView.frames) (UndoFrame.Resize demoFrames) ∧
    roundTrip (Output.Color demoFrames) demoApp demoView
      (UndoFrame.Color demoView.frames) (UndoFrame.Color demoFrames) :=
  C1_reversible_round_trip demoApp demoView 1 demoFrames 0 rfl
    (by decide) (by decide) rfl

/-- C3: applying `Output::Crop` sets the view's accumulated rotation to
zero, swaps the cropped frames into the document, and pushes an
`UndoFrame::Crop` snapshotting both the pre-crop frame set and — with
the output's rotation snapshot equal to the view's current rotation, as
the single-in-flight worker protocol guarantees — the pre-crop rotation
value; a subsequent single `Output::Undo` application restores both the
pre-crop frames and the pre-crop rotation atomically. -/
theorem C3_crop_resets_rotation_and_restores (s : App) (v : ImageView)
    (nf : List Frame) (rsnap : Int)
    (hv : s.image_view = some v)
    (hc : s.undo_stack.cursor ≤ s.undo_stack.stack.length)
    (hsnap : rsnap = v.rotation) :
    ∃ s1 v1, applyOutput (Output.Crop nf rsnap) s = some s1 ∧
      s1.image_view = some v1 ∧ v1.rotation = 0 ∧ v1.frames = nf ∧
      s1.undo_stack.stack.getLast? = some (UndoFrame.Crop v.frames rsnap) ∧
      s1.undo_stack.cursor = s.undo_stack.cursor + 1 ∧
      ∃ s2 v2, applyOutput Output.Undo s1 = some s2 ∧
        s2.image_view = some v2 ∧ v2.frames = v.frames ∧
        v2.rotation = v.rotation := by
  subst hsnap
  rcases s with ⟨iv, ⟨st, c⟩, il, ca, cr, fn⟩
  have hv' : iv = some v := hv
  subst hv'
  have hc' : c ≤ st.length := hc
  have hl : (st.take c).length = c := by simp; omega
  have h2 := apply_undo_crop { v with rotation := 0, frames := nf }
    (st.take c) c il ca cr fn v.frames v.rotation hl
  exact ⟨⟨some { v with rotation := 0, frames := nf },
      ⟨st.take c ++ [UndoFrame.Crop v.frames v.rotation], c + 1⟩,
      il, ca, cr, fn⟩, { v with rotation := 0, frames := nf },
    rfl, rfl, rfl, rfl, getLast?_concat_eq _ _, rfl,
    ⟨some v, ⟨st.take c ++ [UndoFrame.Crop nf 0], c⟩, il, ca, cr, fn⟩, v,
    h2, rfl, rfl, rfl⟩

/-- Witness for C3 at a concrete state: cropping the demo document to
`demoFrames` with snapshot rotation 0 and undoing. -/
theorem C3_witness :
    ∃ s1 v1,
      applyOutput (Output.Crop demoFrames 0) demoApp = some s1 ∧
      s1.image_view = some v1 ∧ v1.rotation = 0 ∧ v1.frames = demoFrames ∧
      s1.undo_stack.stack.getLast? =
        some (UndoFrame.Crop demoView.frames 0) ∧
      s1.undo_stack.cursor = demoApp.undo_stack.cursor + 1 ∧
      ∃ s2 v2, applyOutput Output.Undo s1 = some s2 ∧
        s2.image_view = some v2 ∧ v2.frames = demoView.frames ∧
        v2.rotation = demoView.rotation :=
  C3_crop_resets_rotation_and_restores demoApp demoView demoFrames 0 rfl
    (by decide) rfl

/-- C4: `UndoStack::push` truncates the stack to the cursor, appends the
new frame, and increments the cursor by one; consequently pushing a new
edit after an undo discards all previously-redoable frames — the stack
produced by `push A, push B, undo, push C` is exactly `[A, C]` with the
cursor at 2. -/
theorem C4_push_truncates_redoable (A B C : UndoFrame) :
    (∀ (s : UndoStack) (f : UndoFrame),
        (s.push f).stack = s.stack.take s.cursor ++ [f] ∧
        (s.push f).cursor = s.cursor + 1) ∧
    (((UndoStack.empty.push A).push B).undoStep.2.push C =
      ⟨[A, C], 2⟩) := by
  refine ⟨fun s f => ⟨rfl, rfl⟩, ?_⟩
  simp [UndoStack.empty, UndoStack.push, UndoStack.undoStep]

/-- C6: applying `Output::ImageLoaded` (the result of any navigation or
load) never pushes an `UndoFrame` and always clears the undo stack: the
post-state's history is the empty stack with cursor 0, whatever the prior
state was. -/
theorem C6_image_loaded_clears_history (frames : List Frame)
    (path : Option String) (s : App) :
    ∃ s', applyOutput (Output.ImageLoaded frames path) s = some s' ∧
      s'.undo_stack = UndoStack.empty :=
  ⟨_, rfl, rfl⟩

/-- C7: applying `Output::Undo` with the cursor at 0, or `Output::Redo`
with the cursor at the stack's length, is a silent no-op: the whole app
state (frames, rotation, everything) is returned unchanged and no error
or panic occurs. -/
theorem C7_undo_redo_empty_noop (s : App) :
    (s.undo_stack.cursor = 0 → applyOutput Output.Undo s = some s) ∧
    (s.undo_stack.cursor = s.undo_stack.stack.length →
      applyOutput Output.Redo s = some s) := by
  constructor
  · intro h
    simp [applyOutput, UndoStack.undoStep, h]
  · intro h
    simp [applyOutput, UndoStack.redoStep, h, getElem?_length_self]

/-- Witness for C7 at a concrete state: `demoApp` has cursor 0 and stack
length 0, and both applications leave it untouched. -/
theorem C7_witness :
    applyOutput Output.Undo demoApp = some demoApp ∧
    applyOutput Output.Redo demoApp = some demoApp :=
  ⟨(C7_undo_redo_empty_noop demoApp).1 rfl,
    (C7_undo_redo_empty_noop demoApp).2 rfl⟩

/-- C8: applying `Output::Close` drops the active document, clears the
undo stack, clears the image list, clears the cache, and cancels any
in-progress crop gesture, all in the same poll application. -/
theorem C8_close_clears_everything (s : App) :
    ∃ s', applyOutput Output.Close s = some s' ∧
      s'.image_view = none ∧ s'.undo_stack = UndoStack.empty ∧
      s'.image_list = [] ∧ s'.cache = [] ∧ s'.cropping = false :=
  ⟨_, rfl, rfl, rfl, rfl, rfl, rfl⟩

/-- C9: whenever `App::poll` applies `Output::Undo` or `Output::Redo`
under the invariant that the undo stack is non-empty only while a view
is resident, the application cannot panic (`applyOutput` returns
`some`); and the invariant is preserved by every successful output
application — frames are pushed only when a view exists, and the stack
is cleared whenever the view is replaced (`ImageLoaded`) or removed
(`Close`). -/
theorem C9_undo_redo_never_panics :
    (∀ s, stackImpliesView s →
      (applyOutput Output.Undo s).isSome = true ∧
      (applyOutput Output.Redo s).isSome = true) ∧
    (∀ s o s', stackImpliesView s → applyOutput o s = some s' →
      stackImpliesView s') := by
  constructor
  · intro s hInv
    rcases s with ⟨iv, ⟨st, c⟩, il, ca, cr, fn⟩
    constructor
    · rcases c with _ | c
      · simp [applyOutput, UndoStack.undoStep]
      · cases hst : st[c]? with
        | none => simp [applyOutput, UndoStack.undoStep, hst]
        | some f =>
            have hne : st ≠ [] := by
              intro h
              subst h
              simp at hst
            have hvs : iv.isSome = true := hInv hne
            rcases iv with _ | v
            · simp at hvs
            · cases f <;> simp [applyOutput, UndoStack.undoStep, hst]
    · cases hst : st[c]? with
      | none => simp [applyOutput, UndoStack.redoStep, hst]
      | some f =>
          have hne : st ≠ [] := by
            intro h
            subst h
            simp at hst
          have hvs : iv.isSome = true := hInv hne
          rcases iv with _ | v
          · simp at hvs
          · cases f <;> simp [applyOutput, UndoStack.redoStep, hst]
  · intro s o s' hInv happ
    rcases s with ⟨iv, ⟨st, c⟩, il, ca, cr, fn⟩
    cases o with
    | ImageLoaded frames path =>
        simp [applyOutput] at happ
        subst happ
        exact fun hne => absurd rfl hne
    | FlipHorizontal =>
        rcases iv with _ | v
        · simp [applyOutput] at happ
        · simp [applyOutput] at happ
          subst happ
          exact fun _ => rfl
    | FlipVertical =>
        rcases iv with _ | v
        · simp [applyOutput] at happ
        · simp [applyOutput] at happ
          subst happ
          exact fun _ => rfl
    | Rotate d =>
        rcases iv with _ | v
        · simp [applyOutput] at happ
        · simp [applyOutput] at happ
          subst happ
          exact fun _ => rfl
    | Resize frames =>
        rcases iv with _ | v
        · simp [applyOutput] at happ
          subst happ
          exact hInv
        · simp [applyOutput] at happ
          subst happ
          exact fun _ => rfl
    | Color frames =>
        rcases iv with _ | v
        · simp [applyOutput] at happ
          subst happ
          exact hInv
        · simp [applyOutput] at happ
          subst happ
          exact fun _ => rfl
    | Crop frames rotation =>
        rcases iv with _ | v
        · simp [applyOutput] at happ
          subst happ
          exact hInv
        · simp [applyOutput] at happ
          subst happ
          exact fun _ => rfl
    | Undo =>
        rcases c with _ | c
        · simp [applyOutput, UndoStack.undoStep] at happ
          subst happ
          exact hInv
        · cases hst : st[c]? with
          | none =>
              simp [applyOutput, UndoStack.undoStep, hst] at happ
              subst happ
              exact hInv
          | some f =>
              rcases iv with _ | v
              · simp [applyOutput, UndoStack.undoStep, hst] at happ
              · cases f <;>
                  simp [applyOutput, UndoStack.undoStep, hst] at happ <;>
                  subst happ <;>
                  exact fun _ => rfl
    | Redo =>
        cases hst : st[c]? with
        | none =>
            simp [applyOutput, UndoStack.redoStep, hst] at happ
            subst happ
            exact hInv
        | some f =>
            rcases iv with _ | v
            · simp [applyOutput, UndoStack.redoStep, hst] at happ
            · cases f <;>
                simp [applyOutput, UndoStack.redoStep, hst] at happ <;>
                subst happ <;>
                exact fun _ => rfl
    | Close =>
        simp [applyOutput] at happ
        subst happ
        exact fun hne => absurd rfl hne
    | Done =>
        simp [applyOutput] at happ
        subst happ
        exact hInv

/-- Witness for C9 at a concrete state: `demoApp2` holds one undoable
frame and a resident view, satisfies the invariant, and both `Undo` and
`Redo` apply without panicking. -/
theorem C9_witness :
    (applyOutput Output.Undo demoApp2).isSome = true ∧
    (applyOutput Output.Redo demoApp2).isSome = true :=
  C9_undo_redo_never_panics.1 demoApp2 (fun _ => rfl)

/-- C10: for every `WindowEvent::Moved` event, the handler leaves the y
component of `App.position` unchanged and writes the event's y coordinate
into the x component (the second assignment to x overwrites the first,
and y is never written). -/
theorem C10_moved_overwrites_x (p e : Vec2 Int) :
    (handle_moved p e).x = e.y ∧ (handle_moved p e).y = p.y :=
  ⟨rfl, rfl⟩

/-- C2: every save encodes into a freshly named temporary file in the
same directory as the destination (`get_temp_path` keeps the directory)
and renames it over the destination only after encoding and writing
succeed; when the encode or write fails (`none` / `writeOk = false`),
the function returns an error and the destination's contents are exactly
what they were before the attempt; on success the destination holds the
encoded bytes. Stated for `save_with_format` (the shape shared by
`tiff`, `gif`, `farbfeld`) and for `webp` (the shape shared by
`webp_animation`); the `nanoid`-freshness of the temp name is the
hypothesis that `"." ++ id` differs from the destination's file name. -/
theorem C2_save_is_atomic (fs : Fs) (path : FilePath) (id : String)
    (b : Bytes) (hid : "." ++ id ≠ path.file) :
    (get_temp_path path id).dir = path.dir ∧
    (∃ fs', save_with_format fs path id none = SaveOutcome.error fs' ∧
      fsLookup fs' path = fsLookup fs path) ∧
    (∃ fs', save_with_format fs path id (some b) = SaveOutcome.ok fs' ∧
      fsLookup fs' path = some b) ∧
    (webp fs path id none true = SaveOutcome.error fs) ∧
    (∃ fs', webp fs path id (some b) false = SaveOutcome.error fs' ∧
      fsLookup fs' path = fsLookup fs path) ∧
    (∃ fs', webp fs path id (some b) true = SaveOutcome.ok fs' ∧
      fsLookup fs' path = some b) := by
  have hne : get_temp_path path id ≠ path :=
    fun hEq => hid (congrArg FilePath.file hEq)
  refine ⟨rfl, ⟨_, rfl, ?_⟩, ⟨_, rfl, ?_⟩, rfl, ⟨_, rfl, ?_⟩, ⟨_, rfl, ?_⟩⟩
  · exact fsLookup_write_ne fs path (get_temp_path path id) [] hne
  · simp only [save_with_format, fsRename, fsLookup_write_self]
  · rw [fsLookup_write_ne _ path (get_temp_path path id) b hne]
    exact fsLookup_write_ne fs path (get_temp_path path id) [] hne
  · simp only [webp, fsRename, fsLookup_write_self]

/-- Witness for C2 at a concrete input: saving over an existing two-byte
file `pics/a.png` with temp id `"tmp"` and encoded payload `[1, 2]`. -/
theorem C2_witness :
    (get_temp_path demoPath "tmp").dir = demoPath.dir ∧
    (∃ fs', save_with_format demoFs demoPath "tmp" none =
        SaveOutcome.error fs' ∧
      fsLookup fs' demoPath = fsLookup demoFs demoPath) ∧
    (∃ fs', save_with_format demoFs demoPath "tmp" (some [1, 2]) =
        SaveOutcome.ok fs' ∧
      fsLookup fs' demoPath = some [1, 2]) ∧
    (webp demoFs demoPath "tmp" none true = SaveOutcome.error demoFs) ∧
    (∃ fs', webp demoFs demoPath "tmp" (some [1, 2]) false =
        SaveOutcome.error fs' ∧
      fsLookup fs' demoPath = fsLookup demoFs demoPath) ∧
    (∃ fs', webp demoFs demoPath "tmp" (some [1, 2]) true =
        SaveOutcome.ok fs' ∧
      fsLookup fs' demoPath = some [1, 2]) :=
  C2_save_is_atomic demoFs demoPath "tmp" [1, 2] (by decide)

/-- C5 (counterexample): the resize dialog's guard only checks that both
fields parse as `u32`, so with width `"0"`, height `"17"` and an
available view it queues `Op::Resize` with size `(0, 17)` — a component
not strictly greater than zero, contradicting the claim that every
queued target size has both components `> 0`. -/
theorem C5_counterexample :
    resize_ui_queue "0" "17" true = some (0, 17) ∧ ¬ 0 < (0 : Nat) :=
  ⟨by decide, by decide⟩

/-- C5 (amended): every `Op::Resize` the resize dialog queues has
components that are the successful `u32` parses of the width and height
fields (hence each below 2^32, but possibly zero — the spec's `> 0`
precondition is not enforced by the guard), and it queues only while the
view is available. -/
theorem C5_resize_guard_is_parse (ws hs : String) (avail : Bool)
    (w h : Nat) (hq : resize_ui_queue ws hs avail = some (w, h)) :
    parse_u32 ws = some w ∧ parse_u32 hs = some h ∧
    w < 4294967296 ∧ h < 4294967296 ∧ avail = true := by
  unfold resize_ui_queue at hq
  cases hw : parse_u32 ws with
  | none => rw [hw] at hq; simp at hq
  | some w0 =>
      cases hh : parse_u32 hs with
      | none => rw [hw, hh] at hq; simp at hq
      | some h0 =>
          rw [hw, hh] at hq
          cases avail with
          | false => simp at hq
          | true =>
              simp at hq
              obtain ⟨rfl, rfl⟩ := hq
              exact ⟨rfl, rfl, parse_u32_lt ws w0 hw, parse_u32_lt hs h0 hh,
                rfl⟩

/-- Witness for C5 (amended) at a concrete input: fields `"12"`/`"34"`
with an available view queue size `(12, 34)`. -/
theorem C5_witness :
    parse_u32 "12" = some 12 ∧ parse_u32 "34" = some 34 ∧
    (12 : Nat) < 4294967296 ∧ (34 : Nat) < 4294967296 ∧ true = true :=
  C5_resize_guard_is_parse "12" "34" true 12 34 (by decide)

end Simp
